import Mathlib

/-!
# Verification of the OpenNSA aggregator, topology path-finder and NSI2 provider

Shallow embedding of `opennsa/topology/topology.py`, `opennsa/aggregator.py`
and `opennsa/protocols/nsi2/provider.py`.  Python exceptions are modelled with
`Option`/`Except`; the recursive depth-first path enumeration carries explicit
fuel (the recursion depth is bounded by the number of networks, since every
recursive call extends the visited list with a fresh network name, so the fuel
passed by `findPaths` is never exhausted on any input).

The data classes of the `opennsa.nsa` module (STP, NetworkEndpoint, Network,
Link, Path) are not part of the sources; they are modelled from the spec's
data-model section and from how `topology.py` reads their fields.
-/

namespace OpenNSA

/-- Modelled from the spec: an STP is a `(network, port)` reference; labels are
not consulted by the path-finder and are omitted. `topology.py` reads the
fields `network` and `endpoint`. -/
structure STP where
  network : String
  endpoint : String
deriving DecidableEq

/-- Modelled from the spec: a port (`nsa.NetworkEndpoint`) of a network.
`topology.py` reads `network`, `endpoint`, `dest_stp` (the optional remote
pairing) and `available_capacity`. -/
structure NetworkEndpoint where
  network : String
  endpoint : String
  dest_stp : Option STP
  available_capacity : Option Nat
deriving DecidableEq

/-- Modelled from the spec: a named container of ports (`nsa.Network`). -/
structure Network where
  name : String
  endpoints : List NetworkEndpoint
deriving DecidableEq

/-- Modelled from the spec: an intra-network ordered endpoint pair
(`nsa.Link(stp1, stp2)` as constructed and read in `topology.py`). -/
structure Link where
  stp1 : NetworkEndpoint
  stp2 : NetworkEndpoint
deriving DecidableEq

/-- Modelled from the spec: a `Path` wraps the list of links of a route;
`links()` returns it. -/
structure Path where
  links : List Link
deriving DecidableEq

/-- Modelled from the spec: the bandwidth object consulted by
`filterBandwidth` (only its `minimum` field is read). -/
structure Bandwidths where
  minimum : Option Nat
deriving DecidableEq

/-- `Topology.__init__`: a list of networks. -/
structure Topology where
  networks : List Network
deriving DecidableEq

/-- Errors raised by the topology code (`error.TopologyError`). -/
inductive TopologyError where
  | topologyError (msg : String)
deriving DecidableEq

/-- `Topology.addNetwork`: reject a duplicate network name with
`TopologyError`, otherwise append the network. -/
def Topology.addNetwork (t : Topology) (network : Network) :
    Except TopologyError Topology :=
  if (t.networks.map (·.name)).contains network.name then
    .error (.topologyError ("Network name must be unique (name: " ++ network.name ++ ")"))
  else
    .ok ⟨t.networks ++ [network]⟩

/-- Iterated `addNetwork`, used to state the uniqueness invariant over any
sequence of successful calls. -/
def Topology.addNetworkAll (t : Topology) : List Network → Except TopologyError Topology
  | [] => .ok t
  | n :: rest => do
    let t' ← t.addNetwork n
    t'.addNetworkAll rest

/-- `Topology.getNetwork`: first network with the given name; `TopologyError`
(here `none`) if there is none. -/
def Topology.getNetwork (t : Topology) (network_name : String) : Option Network :=
  t.networks.find? (fun n => n.name = network_name)

/-- Modelled from the spec: `nsa.Network.getEndpoint`, the per-network lookup
used by `findPaths`; first port with the given name. -/
def Network.getEndpoint (nw : Network) (endpoint : String) : Option NetworkEndpoint :=
  nw.endpoints.find? (fun ep => ep.endpoint = endpoint)

/-- `Topology.getEndpoint`: resolve the network, then the first port of that
network with the given name; `TopologyError` (here `none`) otherwise. -/
def Topology.getEndpoint (t : Topology) (network endpoint : String) :
    Option NetworkEndpoint := do
  let nw ← t.getNetwork network
  nw.endpoints.find? (fun ep => ep.endpoint = endpoint)

/-- The inner `vlan` helper of `_pruneMismatchedPorts`: take the last decimal
digit of the port name, or, if there is none, the code point of the last
character (an `IndexError` on the empty name, here `none`); then subtract 4
once if the value exceeds 3. -/
def vlan (endpoint : String) : Option Nat :=
  let vlan_id := (endpoint.toList.filter Char.isDigit).getLast?
  let v : Option Nat :=
    match vlan_id with
    | some d => some (d.toNat - '0'.toNat)
    | none => (endpoint.toList.getLast?).map Char.toNat
  v.map (fun x => if x > 3 then x - 4 else x)

/-- The inner `canConnect` helper of `_pruneMismatchedPorts`: the `assert` on
equal networks becomes `none`; non-`.ets` networks and the two rewrite-capable
networks always connect; otherwise the two `vlan` tags must agree. -/
def canConnect (source_stp dest_stp : NetworkEndpoint) : Option Bool :=
  if source_stp.network ≠ dest_stp.network then none
  else if ¬ source_stp.network.endsWith ".ets" then some true
  else if source_stp.network = "northernlight.ets" ∨ source_stp.network = "netherlight.ets" then
    some true
  else do
    let source_vlan ← vlan source_stp.endpoint
    let dest_vlan ← vlan dest_stp.endpoint
    pure (decide (source_vlan = dest_vlan))

/-- The `isValidRoute` check of `_pruneMismatchedPorts`: all links of the
route pass `canConnect` (every link is tested before `all` is taken, so a
failing `canConnect` aborts the whole computation, as in the source). -/
def isValidRoute (np : List Link) : Option Bool := do
  let checks ← np.mapM (fun link => canConnect link.stp1 link.stp2)
  pure (checks.all id)

/-- `Topology._pruneMismatchedPorts`: keep the routes whose links all pass
`canConnect`. -/
def pruneMismatchedPorts : List (List Link) → Option (List (List Link))
  | [] => some []
  | np :: rest => do
    let ok ← isValidRoute np
    let rest' ← pruneMismatchedPorts rest
    pure (if ok then np :: rest' else rest')

/-- The `hasBandwidth` helper of `Topology.filterBandwidth`. -/
def hasBandwidth (route : List Link) (bandwidths : Bandwidths) : Bool :=
  route.all (fun sdp =>
    !(match sdp.stp1.available_capacity, bandwidths.minimum with
      | some c, some m => decide (c < m)
      | _, _ => false)
    && !(match sdp.stp2.available_capacity, bandwidths.minimum with
      | some c, some m => decide (c < m)
      | _, _ => false))

/-- `Topology.filterBandwidth`: drop routes without sufficient capacity. -/
def filterBandwidth (paths_sdps : List (List Link)) (bandwidths : Bandwidths) :
    List (List Link) :=
  paths_sdps.filter (fun route => hasBandwidth route bandwidths)

/-- One step of the `for ep in snw.endpoints` loop of
`Topology.findPathEndpoints`: skip unpaired ports and ports whose peer
network is already visited; on reaching the destination network close the
route with the final intra-network link; otherwise recurse from the peer
(the recursive call is abstracted by `recur`) and prepend the current hop to
every subroute.  Routes are accumulated in loop order. -/
def findPathEndpointsGo (t : Topology) (src dst : STP) (visited : List String)
    (recur : STP → List String → Option (List (List Link))) :
    List NetworkEndpoint → Option (List (List Link))
  | [] => some []
  | ep :: rest => do
    let current ←
      match ep.dest_stp with
      | none => some []
      | some peer =>
        if peer.network ∈ visited then some []
        else do
          let source_ep ← t.getEndpoint src.network src.endpoint
          if peer.network = dst.network then do
            let last_source_ep ← t.getEndpoint peer.network peer.endpoint
            let last_dest_ep ← t.getEndpoint dst.network dst.endpoint
            pure [[Link.mk source_ep ep, Link.mk last_source_ep last_dest_ep]]
          else do
            let subroutes ← recur peer (visited ++ [peer.network])
            pure (subroutes.map (fun sr => Link.mk source_ep ep :: sr))
    let rest' ← findPathEndpointsGo t src dst visited recur rest
    pure (current ++ rest')

/-- `Topology.findPathEndpoints`, with explicit fuel bounding the recursion
depth (the fuel passed by `findPaths` always suffices, see module comment).
The `visited_networks is None` initialisation of the source happens before
the visited list is ever read, so the caller passes `[source.network]`. -/
def findPathEndpoints (t : Topology) : Nat → STP → STP → List String →
    Option (List (List Link))
  | 0, _, _, _ => none
  | fuel + 1, src, dst, visited => do
    let snw ← t.getNetwork src.network
    findPathEndpointsGo t src dst visited
      (fun peer nvn => findPathEndpoints t fuel peer dst nvn) snw.endpoints

/-- `Topology.findPaths`: resolve both STPs, build the direct link for the
same-network case or enumerate inter-domain routes, apply the optional
bandwidth filter, prune VLAN-mismatched routes, and wrap each route in a
`Path`.  The source's `bandwidth=None` default is passed explicitly. -/
def Topology.findPaths (t : Topology) (source_stp dest_stp : STP)
    (bandwidth : Option Bandwidths) : Option (List Path) := do
  let snw ← t.getNetwork source_stp.network
  let sep ← snw.getEndpoint source_stp.endpoint
  let dnw ← t.getNetwork dest_stp.network
  let dep ← dnw.getEndpoint dest_stp.endpoint
  let network_paths ←
    if snw = dnw then
      some [[Link.mk sep dep]]
    else
      findPathEndpoints t (t.networks.length + 1) source_stp dest_stp [source_stp.network]
  let network_paths :=
    match bandwidth with
    | none => network_paths
    | some bw => filterBandwidth network_paths bw
  let network_paths ← pruneMismatchedPorts network_paths
  pure (network_paths.map Path.mk)

/-! ## Aggregator (`opennsa/aggregator.py`) -/

/-- Modelled from the spec: the reservation-state constants of the missing
`opennsa.state` module (spec section 4.2). -/
inductive RState where
  | INITIAL | RESERVE_CHECKING | RESERVE_HELD | RESERVE_COMMITTING | RESERVED | RESERVE_FAILED
deriving DecidableEq

/-- Modelled from the spec: the lifecycle-state constants of the missing
`opennsa.state` module (spec section 4.2). -/
inductive LState where
  | INITIAL | CREATED | TERMINATING | TERMINATED | TERMINATED_FAILED
deriving DecidableEq

/-- The fields of a `database.ServiceConnection` record read or written by
`Aggregator.terminate` (the remaining columns play no role in the claims). -/
structure ServiceConn where
  connection_id : String
  lifecycle_state : LState
deriving DecidableEq

/-- The fields of a `database.Subconnection` record relevant here: the
provider identity and id used by the fan-outs, and the reservation state the
record is saved with. -/
structure Subconn where
  provider_nsa : String
  connection_id : String
  reservation_state : RState
deriving DecidableEq

/-- One entry of the `DeferredList` result of the reserve fan-out: `(True,
subconnection)` for a leg whose `reserveDone` saved a record, `(False,
failure)` for a failed leg (carrying the failure's error message). -/
inductive LegResult where
  | ok (sc : Subconn)
  | err (msg : String)
deriving DecidableEq

/-- Python runtime errors produced by the module-level error helpers. -/
inductive PyErr where
  | typeError (msg : String)
  | nameError (msg : String)
deriving DecidableEq

/-- The error objects built by `_createAggregateException`. -/
inductive AggError where
  | legFailure (msg : String)
  | connectionCreateError (msg : String)
  | internalServerError (msg : String)
deriving DecidableEq

/-- `_buildErrorMessage`: its first statement evaluates `self.connections()`,
but the function is module-level and `self` is unbound, so every call raises
`NameError` before anything else happens. -/
def buildErrorMessage (_results : List LegResult) (_action : String) :
    Except PyErr String :=
  .error (.nameError "global name self is not defined")

/-- `_createAggregateException`: with no failures return (not raise) an
`InternalServerError`; with exactly one result and one failure return that
leg's failure itself; otherwise build the aggregate message (which raises
`NameError`, see `buildErrorMessage`) and wrap it in `default_error`. -/
def createAggregateException (results : List LegResult) (action : String)
    (default_error : String → AggError) : Except PyErr AggError :=
  let failures := results.filterMap (fun r =>
    match r with
    | .err msg => some msg
    | .ok _ => none)
  if failures.length = 0 then
    .ok (.internalServerError "_createAggregateFailure called with no failures")
  else if results.length = 1 ∧ failures.length = 1 then
    .ok (.legFailure (failures.headD ""))
  else do
    let error_msg ← buildErrorMessage results action
    pure (default_error error_msg)

/-- The error message carried by the outcome of `_createAggregateException`,
if an error object is returned at all. -/
def aggMessage : Except PyErr AggError → Option String
  | .ok (.legFailure m) => some m
  | .ok (.connectionCreateError m) => some m
  | .ok (.internalServerError m) => some m
  | .error _ => none

/-- `_createAggregateFailure(results, action)`: it delegates to
`_createAggregateException` with its `default_error` parameter left at the
default `error.InternalServerError`. -/
def createAggregateFailure (results : List LegResult) (action : String) :
    Except PyErr AggError :=
  createAggregateException results action AggError.internalServerError

/-- The number of parameters of `def _createAggregateFailure(results, action)`
(aggregator.py line 169); the function has no defaults and no varargs. -/
def createAggregateFailureParamCount : Nat := 2

/-- The number of positional arguments at the call
`_createAggregateFailure(results, 'reservations', error.ConnectionCreateError)`
in the failure branch of `Aggregator.reserve` (aggregator.py line 422). -/
def reserveFailureCallArgCount : Nat := 3

/-- Python positional-call check for a function without defaults or varargs:
the argument count must equal the parameter count, else `TypeError`. -/
def pythonArityOk (paramCount argCount : Nat) : Bool :=
  paramCount == argCount

/-- `reserveDone` (the per-leg callback inside `Aggregator.reserve`) saves the
leg's `Subconnection` row with `reservation_state=state.RESERVE_HELD`
(aggregator.py line 379). -/
def reserveDoneRecord (provider_nsa connection_id : String) : Subconn :=
  { provider_nsa := provider_nsa
  , connection_id := connection_id
  , reservation_state := RState.RESERVE_HELD }

instance {ε α : Type} [DecidableEq ε] [DecidableEq α] : DecidableEq (Except ε α) :=
  fun a b =>
    match a, b with
    | .ok x, .ok y =>
      if h : x = y then isTrue (by rw [h]) else isFalse (by simp [h])
    | .error x, .error y =>
      if h : x = y then isTrue (by rw [h]) else isFalse (by simp [h])
    | .ok _, .error _ => isFalse (by simp)
    | .error _, .ok _ => isFalse (by simp)

/-- What the failure branch of `Aggregator.reserve` produces. -/
structure ReserveFailureOut where
  /-- the sub-connections on which `rc.terminate()` is invoked -/
  terminated : List Subconn
  /-- the saved `Subconnection` rows after the branch (the branch performs no
  row update, so these are the rows the successful legs were saved with) -/
  records : List Subconn
  /-- what the `raise err` surfaces to the caller -/
  surfaced : Except PyErr AggError
deriving DecidableEq

/-- The `else` branch of `Aggregator.reserve` (aggregator.py lines 406-423):
launch `terminate` on every successful leg, then evaluate
`err = _createAggregateFailure(results, 'reservations',
error.ConnectionCreateError)` and raise it.  The call passes three arguments
to a two-parameter function, so the evaluation raises `TypeError`; the
would-be two-argument semantics is kept in the (never taken) `true` branch of
the arity check.  The compensation `DeferredList` and the
`state.terminatedFailed` callback are attached but never awaited before the
raise, and no statement of the branch updates a `Subconnection` row. -/
def reserveFailureBranch (results : List LegResult) : ReserveFailureOut :=
  let reserved_connections := results.filterMap (fun r =>
    match r with
    | .ok sc => some sc
    | .err _ => none)
  { terminated := reserved_connections
  , records := reserved_connections
  , surfaced :=
      if pythonArityOk createAggregateFailureParamCount reserveFailureCallArgCount then
        createAggregateFailure results "reservations"
      else
        .error (.typeError "_createAggregateFailure() takes exactly 2 arguments (3 given)") }

/-- `string.hexdigits[:16]` (aggregator.py line 251). -/
def hexAlphabet : List Char := "0123456789abcdefABCDEF".toList.take 16

/-- The connection-id assignment of `Aggregator.reserve`:
`''.join([random.choice(string.hexdigits[:16]) for _ in range(12)])`, with the
random choices supplied as an explicit stream. -/
def generateConnectionId (rand : Nat → Fin 16) : String :=
  String.mk ((List.range 12).map (fun i => hexAlphabet.getD (rand i) 'x'))

/-- Errors raised by the connection-id phase of `Aggregator.reserve`. -/
inductive ReserveIdError where
  | connectionExists
  | notImplemented
deriving DecidableEq

/-- The connection-id logic at the top of `Aggregator.reserve` (aggregator.py
lines 245-251): a caller-supplied id is rejected (`ConnectionExistsError` if
present, `NotImplementedError` otherwise); with no supplied id a fresh id is
generated once, without consulting the existing records. -/
def reserveAssignId (connection_id : Option String) (existingIds : List String)
    (rand : Nat → Fin 16) : Except ReserveIdError String :=
  match connection_id with
  | some cid =>
    if existingIds.contains cid then .error .connectionExists
    else .error .notImplemented
  | none => .ok (generateConnectionId rand)

/-- The hop-count order by which `Aggregator.reserve` sorts paths:
`paths.sort(key=lambda e : len(e.links()))` (aggregator.py line 346). -/
def pathLE (a b : Path) : Prop := a.links.length ≤ b.links.length

instance : DecidableRel pathLE := fun a b =>
  inferInstanceAs (Decidable (a.links.length ≤ b.links.length))

instance : IsTotal Path pathLE := ⟨fun _ _ => Nat.le_total _ _⟩

instance : IsTrans Path pathLE := ⟨fun _ _ _ => Nat.le_trans⟩

/-- The ascending stable sort applied by `Aggregator.reserve` before
selecting the shortest path. -/
def sortPathsByHopCount (paths : List Path) : List Path :=
  paths.insertionSort pathLE

/-- Errors surfaced by `Aggregator.terminate`. -/
inductive TerminateError where
  | connectionNonExistent
  | stateTransition
  | notImplemented
deriving DecidableEq

/-- What a call to `Aggregator.terminate` produces: the result, the updated
connection table, and the TERMINATE fan-out that was dispatched (one entry
`(provider_nsa, connection_id)` per sub-connection). -/
structure TerminateOut where
  result : Except TerminateError String
  conns : List ServiceConn
  dispatched : List (String × String)
deriving DecidableEq

/-- Modelled from the spec: `state.terminating(conn)` of the missing
`opennsa.state` module advances the lifecycle axis to `TERMINATING` and
persists; from a terminal state it fails with `StateTransitionError`
(spec section 4.2).  `Aggregator.terminate` only reaches it on a
non-`TERMINATED` connection. -/
def stateTerminating (conn : ServiceConn) : Except TerminateError ServiceConn :=
  if conn.lifecycle_state = LState.TERMINATED ∨
      conn.lifecycle_state = LState.TERMINATED_FAILED then
    .error .stateTransition
  else
    .ok { conn with lifecycle_state := LState.TERMINATING }

/-- Modelled from the spec: `state.terminated(conn)` advances the lifecycle
axis to `TERMINATED` and persists (spec section 4.2). -/
def stateTerminated (conn : ServiceConn) : ServiceConn :=
  { conn with lifecycle_state := LState.TERMINATED }

/-- Replace the record with `conn`'s connection id by `conn` (persistence of
a state transition). -/
def saveConn (conns : List ServiceConn) (conn : ServiceConn) : List ServiceConn :=
  conns.map (fun c => if c.connection_id = conn.connection_id then conn else c)

/-- `Aggregator.terminate`: load the connection (`ConnectionNonExistentError`
if absent); if its lifecycle is already `TERMINATED` return the connection id
at once, with no transition and no fan-out; otherwise advance to
`TERMINATING`, fan `TERMINATE` out to every sub-connection
(`forAllSubConnections` dispatches `(provider_nsa, connection_id)` per leg,
with outcomes supplied by the environment as `outcomes`), and on full success
advance to `TERMINATED`; partial failure raises `NotImplementedError`. -/
def Aggregator.terminate (conns : List ServiceConn) (subs : List Subconn)
    (outcomes : List Bool) (connection_id : String) : TerminateOut :=
  match conns.find? (fun c => c.connection_id = connection_id) with
  | none => { result := .error .connectionNonExistent, conns := conns, dispatched := [] }
  | some conn =>
    if conn.lifecycle_state = LState.TERMINATED then
      { result := .ok connection_id, conns := conns, dispatched := [] }
    else
      match stateTerminating conn with
      | .error e => { result := .error e, conns := conns, dispatched := [] }
      | .ok conn' =>
        let conns' := saveConn conns conn'
        let dispatched := subs.map (fun sc => (sc.provider_nsa, sc.connection_id))
        if outcomes.all id then
          { result := .ok connection_id
          , conns := saveConn conns' (stateTerminated conn')
          , dispatched := dispatched }
        else
          { result := .error .notImplemented, conns := conns', dispatched := dispatched }

/-! ## NSI2 provider (`opennsa/protocols/nsi2/provider.py`) -/

/-- The response-type keys of the provider's notification dictionary. -/
inductive ResponseType where
  | RESERVE_RESPONSE | RESERVE_COMMIT_RESPONSE | PROVISION_RESPONSE
  | RELEASE_RESPONSE | TERMINATE_RESPONSE
deriving DecidableEq

/-- Modelled from the spec: the NSI header fields the provider stores and
forwards (`reply_to`, requester, provider, correlation id). -/
structure NsiHeader where
  reply_to : Option String
  requester_nsa : String
  provider_nsa : String
  correlation_id : String
deriving DecidableEq

/-- The provider's `self.notifications` dictionary, keyed by
`(connection_id, response_type)`. -/
def Notifications := List ((String × ResponseType) × NsiHeader)

instance : DecidableEq Notifications := inferInstanceAs (DecidableEq (List _))

/-- Dictionary lookup. -/
def notifLookup (m : Notifications) (k : String × ResponseType) : Option NsiHeader :=
  (m.find? (fun e => e.1 = k)).map (·.2)

/-- Dictionary key removal (`dict.pop` removes the key's single entry; the
insertion below keeps keys unique, so removing every entry with the key is
the same). -/
def notifErase (m : Notifications) (k : String × ResponseType) : Notifications :=
  m.filter (fun e => ¬ e.1 = k)

/-- Dictionary assignment `self.notifications[k] = header`. -/
def notifInsert (m : Notifications) (k : String × ResponseType) (h : NsiHeader) :
    Notifications :=
  (k, h) :: notifErase m k

/-- The shared shape of the provider's four confirmation methods
(`reserveConfirmed`, `reserveCommitConfirmed`, `provisionConfirmed`,
`terminateConfirmed`): pop the stored header for
`(connection_id, response_type)` and invoke the provider client with it
(second component `some header`); on `KeyError` log and return
`defer.succeed(None)` without touching the client (second component
`none`). -/
def confirmResponse (rt : ResponseType) (st : Notifications) (connection_id : String) :
    Notifications × Option NsiHeader :=
  match notifLookup st (connection_id, rt) with
  | some h => (notifErase st (connection_id, rt), some h)
  | none => (st, none)

/-- `Provider.reserveConfirmed`. -/
def Provider.reserveConfirmed (st : Notifications) (connection_id : String) :
    Notifications × Option NsiHeader :=
  confirmResponse .RESERVE_RESPONSE st connection_id

/-- `Provider.reserveCommitConfirmed`. -/
def Provider.reserveCommitConfirmed (st : Notifications) (connection_id : String) :
    Notifications × Option NsiHeader :=
  confirmResponse .RESERVE_COMMIT_RESPONSE st connection_id

/-- `Provider.provisionConfirmed`. -/
def Provider.provisionConfirmed (st : Notifications) (connection_id : String) :
    Notifications × Option NsiHeader :=
  confirmResponse .PROVISION_RESPONSE st connection_id

/-- `Provider.terminateConfirmed`. -/
def Provider.terminateConfirmed (st : Notifications) (connection_id : String) :
    Notifications × Option NsiHeader :=
  confirmResponse .TERMINATE_RESPONSE st connection_id

/-! ## Statement vocabulary and concrete instances -/

/-- The data-model invariant that every port's `network` field names the
network that contains it (spec section 3: a network is a named container of
ports). -/
def Topology.wellFormed (t : Topology) : Prop :=
  ∀ nw ∈ t.networks, ∀ ep ∈ nw.endpoints, ep.network = nw.name

instance (t : Topology) : Decidable t.wellFormed :=
  inferInstanceAs (Decidable (∀ nw ∈ t.networks, ∀ ep ∈ nw.endpoints, ep.network = nw.name))

/-- Link `l2` continues link `l1`: the destination endpoint of `l1` is
remote-paired with exactly the port that is the source endpoint of `l2`. -/
def followsLink (t : Topology) (l1 l2 : Link) : Prop :=
  ∃ peer, l1.stp2.dest_stp = some peer ∧
    t.getEndpoint peer.network peer.endpoint = some l2.stp1

instance (t : Topology) (l1 l2 : Link) : Decidable (followsLink t l1 l2) :=
  match h : l1.stp2.dest_stp with
  | none => isFalse (by simp [followsLink, h])
  | some p =>
    decidable_of_iff (t.getEndpoint p.network p.endpoint = some l2.stp1)
      (by simp [followsLink, h])

/-- A three-network topology whose port order makes the depth-first
enumeration emit the three-link route A-B-C before the two-link route A-C. -/
def topoABC : Topology :=
  ⟨[⟨"A", [⟨"A", "a1", none, none⟩,
           ⟨"A", "ax", some ⟨"B", "bx"⟩, none⟩,
           ⟨"A", "ac", some ⟨"C", "ca"⟩, none⟩]⟩,
    ⟨"B", [⟨"B", "bx", some ⟨"A", "ax"⟩, none⟩,
           ⟨"B", "bc", some ⟨"C", "cb"⟩, none⟩]⟩,
    ⟨"C", [⟨"C", "ca", some ⟨"A", "ac"⟩, none⟩,
           ⟨"C", "cb", some ⟨"B", "bc"⟩, none⟩,
           ⟨"C", "c1", none, none⟩]⟩]⟩

/-- A two-network topology with a single inter-domain pairing. -/
def topoAB : Topology :=
  ⟨[⟨"A", [⟨"A", "a1", none, none⟩,
           ⟨"A", "ax", some ⟨"B", "bx"⟩, none⟩]⟩,
    ⟨"B", [⟨"B", "bx", some ⟨"A", "ax"⟩, none⟩,
           ⟨"B", "b2", none, none⟩]⟩]⟩

/-- The first path `findPaths` returns on `topoAB` from `A:a1` to `B:b2`. -/
def pathAB : Path :=
  ((topoAB.findPaths ⟨"A", "a1"⟩ ⟨"B", "b2"⟩ none).getD []).headD ⟨[]⟩

/-- The first path `findPaths` returns on `topoABC` from `A:a1` to `C:c1`
(the three-link route through `B`). -/
def pathABC : Path :=
  ((topoABC.findPaths ⟨"A", "a1"⟩ ⟨"C", "c1"⟩ none).getD []).headD ⟨[]⟩

/-- A successful leg's saved sub-connection row (see `reserveDoneRecord`). -/
def scAruba : Subconn := reserveDoneRecord "urn:ogf:network:nsa:aruba" "sub-A"

/-- A two-leg fan-out result in which the first leg succeeded and the second
failed: the failing input for the reserve compensation claims. -/
def twoLegResults : List LegResult := [.ok scAruba, .err "reservation failed at B"]

/-- A terminated parent connection, for the idempotent-terminate witness. -/
def connDone : ServiceConn := ⟨"4af2b2a0c9d1", LState.TERMINATED⟩

/-- A stored notification header, for the provider-confirmation witness. -/
def hdrW : NsiHeader := ⟨some "http://requester/reply", "urn:req", "urn:prov", "corr-1"⟩

/-- A notification table holding `hdrW` for `("c1", RESERVE_RESPONSE)`. -/
def notifW : Notifications := [(("c1", ResponseType.RESERVE_RESPONSE), hdrW)]

/-! ## Lookup lemmas -/

theorem getNetwork_name {t : Topology} {n : String} {nw : Network}
    (h : t.getNetwork n = some nw) : nw.name = n := by
  have := List.find?_some h
  simpa using this

theorem getNetwork_mem {t : Topology} {n : String} {nw : Network}
    (h : t.getNetwork n = some nw) : nw ∈ t.networks :=
  List.mem_of_find?_eq_some h

theorem getEndpoint_eq {t : Topology} {n e : String} :
    t.getEndpoint n e =
      (t.getNetwork n).bind (fun nw => nw.endpoints.find? (fun ep => ep.endpoint = e)) := rfl

theorem getEndpoint_endpoint {t : Topology} {n e : String} {ep : NetworkEndpoint}
    (h : t.getEndpoint n e = some ep) : ep.endpoint = e := by
  rw [getEndpoint_eq] at h
  cases hg : t.getNetwork n with
  | none => rw [hg] at h; exact absurd h (by simp)
  | some nw =>
    rw [hg, Option.some_bind] at h
    have := List.find?_some h
    simpa using this

theorem getEndpoint_network {t : Topology} (hwf : t.wellFormed) {n e : String}
    {ep : NetworkEndpoint} (h : t.getEndpoint n e = some ep) : ep.network = n := by
  rw [getEndpoint_eq] at h
  cases hg : t.getNetwork n with
  | none => rw [hg] at h; exact absurd h (by simp)
  | some nw =>
    rw [hg, Option.some_bind] at h
    have hmem : ep ∈ nw.endpoints := List.mem_of_find?_eq_some h
    have := hwf nw (getNetwork_mem hg) ep hmem
    rw [this, getNetwork_name hg]

theorem optBind_some {α β : Type} (a : α) (f : α → Option β) :
    (some a >>= f) = f a := rfl

theorem optBind_eq_some {α β : Type} {x : Option α} {f : α → Option β} {b : β} :
    (x >>= f) = some b ↔ ∃ a, x = some a ∧ f a = some b := by
  cases x <;> simp

theorem pruneMismatchedPorts_mem :
    ∀ {l l' : List (List Link)}, pruneMismatchedPorts l = some l' →
      ∀ np ∈ l', np ∈ l := by
  intro l
  induction l with
  | nil =>
    intro l' h np hnp
    simp only [pruneMismatchedPorts, Option.some_inj] at h
    subst h
    exact absurd hnp (by simp)
  | cons hd tl ih =>
    intro l' h np hnp
    unfold pruneMismatchedPorts at h
    cases hok : isValidRoute hd with
    | none => simp [hok] at h
    | some ok =>
      cases hrest : pruneMismatchedPorts tl with
      | none => simp [hok, hrest] at h
      | some rest' =>
        simp only [hok, hrest, optBind_some, Option.pure_def, Option.some_inj] at h
        subst h
        by_cases hok2 : ok = true
        · rw [if_pos hok2] at hnp
          rcases List.mem_cons.mp hnp with h1 | h2
          · exact h1 ▸ List.mem_cons_self _ _
          · exact List.mem_cons_of_mem _ (ih hrest np h2)
        · rw [if_neg hok2] at hnp
          exact List.mem_cons_of_mem _ (ih hrest np hnp)

theorem filterBandwidth_mem {l : List (List Link)} {bw : Bandwidths}
    {np : List Link} (h : np ∈ filterBandwidth l bw) : np ∈ l :=
  List.mem_of_mem_filter h

theorem notifLookup_notifErase (m : Notifications) (k : String × ResponseType) :
    notifLookup (notifErase m k) k = none := by
  unfold notifLookup notifErase
  rw [Option.map_eq_none']
  rw [List.find?_eq_none]
  intro x hx
  rw [List.mem_filter] at hx
  simpa using hx.2

/-! ## Claims -/

/-- C1: the reserve fan-out failure branch at the failing input
`twoLegResults` (first leg reserved, second failed).  The code does invoke
`terminate` on the successful leg, but it leaves the successful leg's saved
`Subconnection` row in `RESERVE_HELD`, and the raised error is a `TypeError`
(the `_createAggregateFailure` call passes three arguments to a two-parameter
function), not the `ConnectionCreateError` the claim requires. -/
theorem reserve_failure_branch_bug :
    (reserveFailureBranch twoLegResults).terminated = [scAruba] ∧
    (reserveFailureBranch twoLegResults).records.map (·.reservation_state) =
      [RState.RESERVE_HELD] ∧
    (reserveFailureBranch twoLegResults).surfaced =
      .error (.typeError "_createAggregateFailure() takes exactly 2 arguments (3 given)") ∧
    (∀ msg, (reserveFailureBranch twoLegResults).surfaced ≠
      .ok (AggError.connectionCreateError msg)) := by
  have hsurf : (reserveFailureBranch twoLegResults).surfaced =
      .error (.typeError "_createAggregateFailure() takes exactly 2 arguments (3 given)") := by
    decide
  exact ⟨by decide, by decide, hsurf, fun msg h => Except.noConfusion (hsurf ▸ h)⟩

/-- C2: `Aggregator.terminate` on a connection whose lifecycle state is
already `TERMINATED` returns the connection id as a success, leaves the
connection table unchanged, and dispatches no `TERMINATE` to any
sub-connection provider. -/
theorem terminate_idempotent (conns : List ServiceConn) (subs : List Subconn)
    (outcomes : List Bool) (cid : String) (conn : ServiceConn)
    (hfind : conns.find? (fun c => c.connection_id = cid) = some conn)
    (hterm : conn.lifecycle_state = LState.TERMINATED) :
    Aggregator.terminate conns subs outcomes cid =
      { result := .ok cid, conns := conns, dispatched := [] } := by
  unfold Aggregator.terminate
  rw [hfind]
  simp [hterm]

/-- Witness for C2: a second `Terminate` on the terminated connection
`connDone` succeeds without mutation or fan-out. -/
theorem terminate_idempotent_witness :
    Aggregator.terminate [connDone] [scAruba] [] "4af2b2a0c9d1" =
      { result := .ok "4af2b2a0c9d1", conns := [connDone], dispatched := [] } :=
  terminate_idempotent [connDone] [scAruba] [] "4af2b2a0c9d1" connDone
    (by decide) (by decide)

/-- C4 counterexample: on `topoABC`, `findPaths` itself returns the
three-link route before the two-link route, so its result is not sorted
ascending by hop count. -/
theorem findPaths_not_sorted :
    ((topoABC.findPaths ⟨"A", "a1"⟩ ⟨"C", "c1"⟩ none).getD []).map
        (fun p => p.links.length) = [3, 2] ∧
    ¬ List.Sorted pathLE ((topoABC.findPaths ⟨"A", "a1"⟩ ⟨"C", "c1"⟩ none).getD []) := by
  have hmap : ((topoABC.findPaths ⟨"A", "a1"⟩ ⟨"C", "c1"⟩ none).getD []).map
      (fun p => p.links.length) = [3, 2] := by decide
  refine ⟨hmap, fun h => ?_⟩
  have h2 : List.Pairwise (fun a b : Nat => a ≤ b)
      (((topoABC.findPaths ⟨"A", "a1"⟩ ⟨"C", "c1"⟩ none).getD []).map
        (fun p => p.links.length)) :=
    List.pairwise_map.mpr h
  rw [hmap] at h2
  exact absurd ((List.pairwise_cons.mp h2).1 2 (by simp)) (by decide)

/-- C4 amended: the hop-count-ascending order is established by the caller:
`Aggregator.reserve` sorts the paths returned by `findPaths` with
`sort(key=len(links))` before selecting the shortest, and that sorted list is
ascending by hop count. -/
theorem reserve_sorts_findPaths (t : Topology) (s d : STP) (bw : Option Bandwidths)
    (paths : List Path) (_h : t.findPaths s d bw = some paths) :
    List.Sorted pathLE (sortPathsByHopCount paths) :=
  List.sorted_insertionSort pathLE paths

/-- Witness for the amended C4: the aggregator-side sort of the `topoABC`
enumeration is sorted by hop count. -/
theorem reserve_sorts_findPaths_witness :
    List.Sorted pathLE (sortPathsByHopCount
      ((topoABC.findPaths ⟨"A", "a1"⟩ ⟨"C", "c1"⟩ none).getD [])) :=
  reserve_sorts_findPaths topoABC ⟨"A", "a1"⟩ ⟨"C", "c1"⟩ none _ rfl

/-- C6 counterexample: for the port name `"p9"` the tag used by the pruning
is `5`, not the last decimal digit `9`. -/
theorem vlan_not_last_digit : vlan "p9" = some 5 ∧ vlan "p9" ≠ some 9 := by
  decide

/-- C6 amended: the tag is the last decimal digit of the port name — reduced
by 4 once when it exceeds 3 — and, when the name has no digit, the code point
of the last character, likewise reduced by 4 once when it exceeds 3 (not
taken modulo 4). -/
theorem vlan_tag_rule (name : String) :
    (∀ d, (name.toList.filter Char.isDigit).getLast? = some d →
      vlan name = some (if d.toNat - '0'.toNat > 3
        then d.toNat - '0'.toNat - 4 else d.toNat - '0'.toNat)) ∧
    (name.toList.filter Char.isDigit = [] → ∀ c, name.toList.getLast? = some c →
      vlan name = some (if c.toNat > 3 then c.toNat - 4 else c.toNat)) := by
  constructor
  · intro d hd
    unfold vlan
    rw [hd]
    rfl
  · intro hnone c hc
    unfold vlan
    rw [hnone, hc]
    rfl

/-- Witness for the amended C6: the digit rule evaluated at `"p9"`. -/
theorem vlan_tag_rule_witness :
    vlan "p9" = some (if '9'.toNat - '0'.toNat > 3
      then '9'.toNat - '0'.toNat - 4 else '9'.toNat - '0'.toNat) :=
  (vlan_tag_rule "p9").1 '9' (by decide)

/-- C7 counterexample: a two-leg fan-out with exactly one failed leg does not
surface that leg's message verbatim — `_createAggregateException` takes the
aggregate branch, whose `_buildErrorMessage` raises `NameError`, so no error
message at all is produced. -/
theorem aggregate_error_not_verbatim :
    createAggregateException twoLegResults "reservations" AggError.connectionCreateError =
      .error (.nameError "global name self is not defined") ∧
    aggMessage (createAggregateException twoLegResults "reservations"
      AggError.connectionCreateError) ≠ some "reservation failed at B" := by
  decide

/-- C7 amended: only when the fan-out consisted of exactly one leg and that
leg failed is the leg's failure returned as-is, its message verbatim. -/
theorem aggregate_error_single_leg (msg action : String)
    (default_error : String → AggError) :
    createAggregateException [.err msg] action default_error = .ok (.legFailure msg) ∧
    aggMessage (createAggregateException [.err msg] action default_error) = some msg := by
  exact ⟨rfl, rfl⟩

/-- C8 counterexample: with every random choice `0` and the id
`"000000000000"` already present, the assignment in `Aggregator.reserve`
still returns that colliding id — no retry happens. -/
theorem connection_id_no_retry :
    reserveAssignId none ["000000000000"] (fun _ => 0) = .ok "000000000000" ∧
    "000000000000" ∈ ["000000000000"] := by
  decide

/-- C8 amended: every assigned connection id is a 12-character string over
`{0-9, a-f}`, but a freshly generated id is never checked against the
existing records: the generation is not retried on collision. -/
theorem connection_id_format (rand : Nat → Fin 16) (existing : List String) :
    (generateConnectionId rand).length = 12 ∧
    (generateConnectionId rand).toList.all (fun c => hexAlphabet.contains c) = true ∧
    reserveAssignId none existing rand = .ok (generateConnectionId rand) := by
  refine ⟨?_, ?_, rfl⟩
  · simp [generateConnectionId, String.length]
  · rw [List.all_eq_true]
    intro c hc
    simp only [generateConnectionId, String.toList, String.mk, List.mem_map] at hc
    obtain ⟨i, _, hci⟩ := hc
    subst hci
    have hlt : ((rand i : Fin 16) : Nat) < hexAlphabet.length := by
      simp [hexAlphabet]
    rw [List.getD_eq_getElem _ _ hlt]
    exact List.elem_eq_true_of_mem (List.getElem_mem hlt)

theorem addNetworkAll_nodup :
    ∀ (nets : List Network) (t t' : Topology),
      (t.networks.map (·.name)).Nodup → t.addNetworkAll nets = .ok t' →
      (t'.networks.map (·.name)).Nodup := by
  intro nets
  induction nets with
  | nil =>
    intro t t' hnd h
    simp only [Topology.addNetworkAll] at h
    cases h
    exact hnd
  | cons n rest ih =>
    intro t t' hnd h
    unfold Topology.addNetworkAll at h
    cases hadd : t.addNetwork n with
    | error e => rw [hadd] at h; exact Except.noConfusion h
    | ok t1 =>
      rw [hadd] at h
      have h' : t1.addNetworkAll rest = .ok t' := h
      refine ih t1 t' ?_ h'
      unfold Topology.addNetwork at hadd
      by_cases hc : (t.networks.map (·.name)).contains n.name = true
      · rw [if_pos hc] at hadd; exact absurd hadd (by simp)
      · rw [if_neg hc] at hadd
        have ht1 : t1 = ⟨t.networks ++ [n]⟩ := by
          cases hadd; rfl
        subst ht1
        have hnot : n.name ∉ t.networks.map (·.name) := by
          intro hmem
          exact hc (List.elem_eq_true_of_mem hmem)
        simp only [List.map_append, List.map_cons, List.map_nil]
        rw [List.nodup_append]
        exact ⟨hnd, List.nodup_singleton _, by
          intro a ha hb
          rw [List.mem_singleton] at hb
          exact hnot (hb ▸ ha)⟩

/-- C9: `addNetwork` rejects a duplicate network name with `TopologyError`,
so after any sequence of successful `addNetwork` calls starting from the
empty topology all network names are distinct and a name determines at most
one network (which is what `getNetwork` then returns). -/
theorem addNetwork_unique_names :
    (∀ (t : Topology) (nw : Network),
      (t.networks.map (·.name)).contains nw.name = true →
      ∃ msg, t.addNetwork nw = .error (.topologyError msg)) ∧
    (∀ (nets : List Network) (t : Topology),
      Topology.addNetworkAll ⟨[]⟩ nets = .ok t →
      (t.networks.map (·.name)).Nodup ∧
      ∀ n1 ∈ t.networks, ∀ n2 ∈ t.networks, n1.name = n2.name → n1 = n2) := by
  constructor
  · intro t nw hc
    refine ⟨"Network name must be unique (name: " ++ nw.name ++ ")", ?_⟩
    unfold Topology.addNetwork
    rw [if_pos hc]
  · intro nets t h
    have hnd := addNetworkAll_nodup nets ⟨[]⟩ t (by simp) h
    exact ⟨hnd, fun n1 h1 n2 h2 hname =>
      List.inj_on_of_nodup_map hnd h1 h2 hname⟩

/-- Witness for C9: adding a network whose name is already present fails,
and building `topoAB` by successive `addNetwork` calls yields distinct
network names. -/
theorem addNetwork_unique_names_witness :
    (∃ msg, topoAB.addNetwork ⟨"A", []⟩ = .error (.topologyError msg)) ∧
    (topoAB.networks.map (·.name)).Nodup := by
  constructor
  · exact addNetwork_unique_names.1 topoAB ⟨"A", []⟩ (by decide)
  · exact (addNetwork_unique_names.2 [topoAB.networks.headD ⟨"", []⟩,
      (topoAB.networks.drop 1).headD ⟨"", []⟩] topoAB (by decide)).1

/-- C10: each stored notification header is consumed by the first
confirmation for its `(connection_id, response type)` key — a second
confirmation, or any confirmation with no stored header, returns success
(`defer.succeed(None)`) without invoking the provider client — and
`reserveConfirmed`, `reserveCommitConfirmed`, `provisionConfirmed` and
`terminateConfirmed` all follow this shape. -/
theorem confirmations_consume_header (st : Notifications) (cid : String)
    (rt : ResponseType) :
    (notifLookup st (cid, rt) = none → confirmResponse rt st cid = (st, none)) ∧
    (∀ h, notifLookup st (cid, rt) = some h →
      confirmResponse rt st cid = (notifErase st (cid, rt), some h) ∧
      notifLookup (notifErase st (cid, rt)) (cid, rt) = none ∧
      confirmResponse rt (notifErase st (cid, rt)) cid =
        (notifErase st (cid, rt), none)) ∧
    Provider.reserveConfirmed st cid = confirmResponse .RESERVE_RESPONSE st cid ∧
    Provider.reserveCommitConfirmed st cid =
      confirmResponse .RESERVE_COMMIT_RESPONSE st cid ∧
    Provider.provisionConfirmed st cid = confirmResponse .PROVISION_RESPONSE st cid ∧
    Provider.terminateConfirmed st cid = confirmResponse .TERMINATE_RESPONSE st cid := by
  refine ⟨?_, ?_, rfl, rfl, rfl, rfl⟩
  · intro hnone
    unfold confirmResponse
    rw [hnone]
  · intro h hsome
    have he := notifLookup_notifErase st (cid, rt)
    refine ⟨?_, he, ?_⟩
    · unfold confirmResponse
      rw [hsome]
    · unfold confirmResponse
      rw [he]

/-- Witness for C10: on the concrete table `notifW`, the first
`reserveConfirmed` for `"c1"` pops the stored header and a repeated one
succeeds without a client call. -/
theorem confirmations_consume_header_witness :
    confirmResponse .RESERVE_RESPONSE notifW "c1" =
      (notifErase notifW ("c1", .RESERVE_RESPONSE), some hdrW) ∧
    notifLookup (notifErase notifW ("c1", .RESERVE_RESPONSE))
      ("c1", .RESERVE_RESPONSE) = none ∧
    confirmResponse .RESERVE_RESPONSE
      (notifErase notifW ("c1", .RESERVE_RESPONSE)) "c1" =
      (notifErase notifW ("c1", .RESERVE_RESPONSE), none) :=
  (confirmations_consume_header notifW "c1" .RESERVE_RESPONSE).2.1 hdrW (by decide)

theorem findPathEndpointsGo_spec {t : Topology} {src dst : STP} {visited : List String}
    {recur : STP → List String → Option (List (List Link))}
    (P : List Link → Prop)
    (hdirect : ∀ ep peer source_ep last_source_ep last_dest_ep,
      ep.dest_stp = some peer → peer.network ∉ visited →
      t.getEndpoint src.network src.endpoint = some source_ep →
      peer.network = dst.network →
      t.getEndpoint peer.network peer.endpoint = some last_source_ep →
      t.getEndpoint dst.network dst.endpoint = some last_dest_ep →
      P [Link.mk source_ep ep, Link.mk last_source_ep last_dest_ep])
    (hrec : ∀ ep peer source_ep sr subroutes,
      ep.dest_stp = some peer → peer.network ∉ visited →
      t.getEndpoint src.network src.endpoint = some source_ep →
      peer.network ≠ dst.network →
      recur peer (visited ++ [peer.network]) = some subroutes → sr ∈ subroutes →
      P (Link.mk source_ep ep :: sr)) :
    ∀ {eps routes}, findPathEndpointsGo t src dst visited recur eps = some routes →
      ∀ r ∈ routes, P r := by
  intro eps
  induction eps with
  | nil =>
    intro routes h r hr
    simp only [findPathEndpointsGo, Option.some_inj] at h
    subst h
    exact absurd hr (by simp)
  | cons ep rest ih =>
    intro routes h r hr
    unfold findPathEndpointsGo at h
    cases hdst : ep.dest_stp with
    | none =>
      simp only [hdst, optBind_some] at h
      rw [optBind_eq_some] at h
      obtain ⟨rest', hrest, hpure⟩ := h
      rw [Option.pure_def, Option.some_inj] at hpure
      subst hpure
      exact ih hrest r (by simpa using hr)
    | some peer =>
      simp only [hdst] at h
      by_cases hvis : peer.network ∈ visited
      · rw [if_pos hvis] at h
        rw [optBind_some, optBind_eq_some] at h
        obtain ⟨rest', hrest, hpure⟩ := h
        rw [Option.pure_def, Option.some_inj] at hpure
        subst hpure
        exact ih hrest r (by simpa using hr)
      · rw [if_neg hvis] at h
        rw [optBind_eq_some] at h
        obtain ⟨source_ep, hsep, hif⟩ := h
        by_cases hpd : peer.network = dst.network
        · rw [if_pos hpd] at hif
          rw [optBind_eq_some] at hif
          obtain ⟨ls, hls, hif⟩ := hif
          rw [optBind_eq_some] at hif
          obtain ⟨ld, hld, hif⟩ := hif
          rw [Option.pure_def, optBind_some, optBind_eq_some] at hif
          obtain ⟨rest', hrest, hpure⟩ := hif
          rw [Option.some_inj] at hpure
          subst hpure
          rcases List.mem_append.mp hr with hrc | hrr
          · rw [List.mem_singleton] at hrc
            subst hrc
            exact hdirect ep peer source_ep ls ld hdst hvis hsep hpd hls hld
          · exact ih hrest r hrr
        · rw [if_neg hpd] at hif
          rw [optBind_eq_some] at hif
          obtain ⟨subroutes, hsub, hif⟩ := hif
          rw [Option.pure_def, optBind_some, optBind_eq_some] at hif
          obtain ⟨rest', hrest, hpure⟩ := hif
          rw [Option.some_inj] at hpure
          subst hpure
          rcases List.mem_append.mp hr with hrc | hrr
          · rw [List.mem_map] at hrc
            obtain ⟨sr, hsr, hr'⟩ := hrc
            subst hr'
            exact hrec ep peer source_ep sr subroutes hdst hvis hsep hpd hsub hsr
          · exact ih hrest r hrr

theorem findPathEndpoints_spec (t : Topology) (dst : STP)
    (P : STP → List String → List Link → Prop)
    (hdirect : ∀ src visited (ep : NetworkEndpoint) peer source_ep ls ld,
      ep.dest_stp = some peer → peer.network ∉ visited →
      t.getEndpoint src.network src.endpoint = some source_ep →
      peer.network = dst.network →
      t.getEndpoint peer.network peer.endpoint = some ls →
      t.getEndpoint dst.network dst.endpoint = some ld →
      P src visited [Link.mk source_ep ep, Link.mk ls ld])
    (hstep : ∀ src visited (ep : NetworkEndpoint) peer source_ep sr,
      ep.dest_stp = some peer → peer.network ∉ visited →
      t.getEndpoint src.network src.endpoint = some source_ep →
      peer.network ≠ dst.network →
      P peer (visited ++ [peer.network]) sr →
      P src visited (Link.mk source_ep ep :: sr)) :
    ∀ (fuel : Nat) (src : STP) (visited : List String) (routes : List (List Link)),
      findPathEndpoints t fuel src dst visited = some routes →
      ∀ r ∈ routes, P src visited r := by
  intro fuel
  induction fuel with
  | zero =>
    intro src visited routes h
    exact absurd h (by simp [findPathEndpoints])
  | succ fuel ih =>
    intro src visited routes h r hr
    unfold findPathEndpoints at h
    rw [optBind_eq_some] at h
    obtain ⟨snw, _, hgo⟩ := h
    refine findPathEndpointsGo_spec (P src visited)
      (fun ep peer source_ep ls ld h1 h2 h3 h4 h5 h6 =>
        hdirect src visited ep peer source_ep ls ld h1 h2 h3 h4 h5 h6)
      (fun ep peer source_ep sr subroutes h1 h2 h3 h4 h5 h6 =>
        hstep src visited ep peer source_ep sr h1 h2 h3 h4
          (ih peer (visited ++ [peer.network]) subroutes h5 sr h6))
      hgo r hr

theorem networkGetEndpoint_endpoint {nw : Network} {e : String} {ep : NetworkEndpoint}
    (h : nw.getEndpoint e = some ep) : ep.endpoint = e := by
  have := List.find?_some h
  simpa using this

theorem findPaths_inv {t : Topology} {s d : STP} {bw : Option Bandwidths}
    {paths : List Path} (h : t.findPaths s d bw = some paths) :
    ∃ snw sep dnw dep network_paths pruned,
      t.getNetwork s.network = some snw ∧
      snw.getEndpoint s.endpoint = some sep ∧
      t.getNetwork d.network = some dnw ∧
      dnw.getEndpoint d.endpoint = some dep ∧
      ((snw = dnw ∧ network_paths = [[Link.mk sep dep]]) ∨
       (snw ≠ dnw ∧
        findPathEndpoints t (t.networks.length + 1) s d [s.network] = some network_paths)) ∧
      pruneMismatchedPorts (match bw with
        | none => network_paths
        | some b => filterBandwidth network_paths b) = some pruned ∧
      paths = pruned.map Path.mk := by
  unfold Topology.findPaths at h
  rw [optBind_eq_some] at h
  obtain ⟨snw, hsnw, h⟩ := h
  rw [optBind_eq_some] at h
  obtain ⟨sep, hsep, h⟩ := h
  rw [optBind_eq_some] at h
  obtain ⟨dnw, hdnw, h⟩ := h
  rw [optBind_eq_some] at h
  obtain ⟨dep, hdep, h⟩ := h
  by_cases heq : snw = dnw
  · rw [if_pos heq, optBind_some] at h
    rw [optBind_eq_some] at h
    obtain ⟨pruned, hprune, hpure⟩ := h
    rw [Option.pure_def, Option.some_inj] at hpure
    exact ⟨snw, sep, dnw, dep, [[Link.mk sep dep]], pruned, hsnw, hsep, hdnw, hdep,
      Or.inl ⟨heq, rfl⟩, hprune, hpure.symm⟩
  · rw [if_neg heq] at h
    rw [optBind_eq_some] at h
    obtain ⟨np, hnp, h⟩ := h
    rw [optBind_eq_some] at h
    obtain ⟨pruned, hprune, hpure⟩ := h
    rw [Option.pure_def, Option.some_inj] at hpure
    exact ⟨snw, sep, dnw, dep, np, pruned, hsnw, hsep, hdnw, hdep,
      Or.inr ⟨heq, hnp⟩, hprune, hpure.symm⟩

theorem routes_mem_of_findPaths {bw : Option Bandwidths}
    {network_paths pruned : List (List Link)}
    (hprune : pruneMismatchedPorts (match bw with
      | none => network_paths
      | some b => filterBandwidth network_paths b) = some pruned) :
    ∀ np ∈ pruned, np ∈ network_paths := by
  intro np hnp
  have h1 := pruneMismatchedPorts_mem hprune np hnp
  cases bw with
  | none => exact h1
  | some b => exact filterBandwidth_mem h1

/-- C3: every path returned by `findPaths(s, d)` starts at `s`'s port, ends
at `d`'s port, and each adjacent pair of links is joined by a remote pairing:
the destination endpoint of link `i` is paired with exactly the port that is
the source endpoint of link `i+1`. -/
theorem findPaths_path_structure (t : Topology) (s d : STP) (bw : Option Bandwidths)
    (paths : List Path) (h : t.findPaths s d bw = some paths) :
    ∀ p ∈ paths, ∃ fst lst, p.links.head? = some fst ∧ p.links.getLast? = some lst ∧
      fst.stp1.endpoint = s.endpoint ∧ lst.stp2.endpoint = d.endpoint ∧
      List.Chain' (followsLink t) p.links := by
  obtain ⟨snw, sep, dnw, dep, network_paths, pruned, hsnw, hsep, hdnw, hdep, hcase,
    hprune, hpaths⟩ := findPaths_inv h
  intro p hp
  subst hpaths
  rw [List.mem_map] at hp
  obtain ⟨np, hnpmem, hpnp⟩ := hp
  subst hpnp
  have hnp : np ∈ network_paths := routes_mem_of_findPaths hprune np hnpmem
  rcases hcase with ⟨heq, hdef⟩ | ⟨hne, hfpe⟩
  · subst hdef
    rw [List.mem_singleton] at hnp
    subst hnp
    exact ⟨Link.mk sep dep, Link.mk sep dep, rfl, rfl,
      networkGetEndpoint_endpoint hsep, networkGetEndpoint_endpoint hdep,
      List.chain'_singleton _⟩
  · have hmain := findPathEndpoints_spec t d
      (fun src _visited r => ∃ fst lst, r.head? = some fst ∧ r.getLast? = some lst ∧
        t.getEndpoint src.network src.endpoint = some fst.stp1 ∧
        t.getEndpoint d.network d.endpoint = some lst.stp2 ∧
        List.Chain' (followsLink t) r)
      ?_ ?_ (t.networks.length + 1) s [s.network] network_paths hfpe np hnp
    · obtain ⟨fst, lst, hhead, hlast, hfst, hlst, hchain⟩ := hmain
      exact ⟨fst, lst, hhead, hlast, getEndpoint_endpoint hfst,
        getEndpoint_endpoint hlst, hchain⟩
    · intro src visited ep peer source_ep ls ld h1 _h2 h3 h4 h5 h6
      refine ⟨Link.mk source_ep ep, Link.mk ls ld, rfl, rfl, h3, h6, ?_⟩
      rw [List.chain'_cons']
      refine ⟨fun b hb => ?_, List.chain'_singleton _⟩
      rw [Option.mem_def, List.head?_cons, Option.some_inj] at hb
      subst hb
      exact ⟨peer, h1, h5⟩
    · intro src visited ep peer source_ep sr h1 _h2 h3 _h4 hP
      obtain ⟨fst', lst', hhead', hlast', hfst', hlst', hchain'⟩ := hP
      cases sr with
      | nil => exact absurd hhead' (by simp)
      | cons f' sr'' =>
        rw [List.head?_cons, Option.some_inj] at hhead'
        refine ⟨Link.mk source_ep ep, lst', rfl, ?_, h3, hlst', ?_⟩
        · rw [List.getLast?_cons_cons]
          exact hlast'
        · rw [List.chain'_cons']
          refine ⟨fun b hb => ?_, hchain'⟩
          rw [Option.mem_def, List.head?_cons, Option.some_inj] at hb
          subst hb
          subst hhead'
          exact ⟨peer, h1, hfst'⟩

/-- C5: no network appears twice among the networks traversed by the links
of any path returned by `findPaths` (each link's network being the `network`
field of its source endpoint, under the data-model invariant that ports name
their containing network). -/
theorem findPaths_no_network_twice (t : Topology) (hwf : t.wellFormed) (s d : STP)
    (bw : Option Bandwidths) (paths : List Path) (h : t.findPaths s d bw = some paths) :
    ∀ p ∈ paths, (p.links.map (fun l => l.stp1.network)).Nodup := by
  obtain ⟨snw, sep, dnw, dep, network_paths, pruned, hsnw, hsep, hdnw, hdep, hcase,
    hprune, hpaths⟩ := findPaths_inv h
  intro p hp
  subst hpaths
  rw [List.mem_map] at hp
  obtain ⟨np, hnpmem, hpnp⟩ := hp
  subst hpnp
  have hnp : np ∈ network_paths := routes_mem_of_findPaths hprune np hnpmem
  rcases hcase with ⟨heq, hdef⟩ | ⟨hne, hfpe⟩
  · subst hdef
    rw [List.mem_singleton] at hnp
    subst hnp
    simp
  · have hsd : s.network ≠ d.network := by
      intro hcon
      rw [hcon, hdnw, Option.some_inj] at hsnw
      exact hne hsnw.symm
    have hmain := findPathEndpoints_spec t d
      (fun src visited r => src.network ∈ visited → d.network ∉ visited →
        ∃ restN, r.map (fun l => l.stp1.network) = src.network :: restN ∧
          (src.network :: restN).Nodup ∧ ∀ n ∈ restN, n ∉ visited)
      ?_ ?_ (t.networks.length + 1) s [s.network] network_paths hfpe np hnp
    · obtain ⟨restN, hmap, hnodup, _⟩ :=
        hmain (List.mem_singleton_self _) (by simp [Ne.symm hsd])
      rw [hmap]
      exact hnodup
    · intro src visited ep peer source_ep ls ld h1 h2 h3 h4 h5 _h6 hsrcv hdnv
      refine ⟨[peer.network], ?_, ?_, ?_⟩
      · simp only [List.map_cons, List.map_nil]
        rw [getEndpoint_network hwf h3, getEndpoint_network hwf h5]
      · rw [List.nodup_cons]
        refine ⟨?_, List.nodup_singleton _⟩
        rw [List.mem_singleton]
        intro hcon
        rw [hcon] at hsrcv
        exact h2 hsrcv
      · intro n hn
        rw [List.mem_singleton] at hn
        subst hn
        exact h2
    · intro src visited ep peer source_ep sr h1 h2 h3 h4 hP hsrcv hdnv
      have hpv : peer.network ∈ visited ++ [peer.network] := by simp
      have hdv : d.network ∉ visited ++ [peer.network] := by
        simp only [List.mem_append, List.mem_singleton]
        rintro (hc | hc)
        · exact hdnv hc
        · exact h4 hc.symm
      obtain ⟨restN', hmap', hnodup', hnotv'⟩ := hP hpv hdv
      refine ⟨peer.network :: restN', ?_, ?_, ?_⟩
      · simp only [List.map_cons]
        rw [getEndpoint_network hwf h3, hmap']
      · rw [List.nodup_cons]
        refine ⟨?_, hnodup'⟩
        rw [List.mem_cons]
        rintro (hc | hc)
        · rw [hc] at hsrcv
          exact h2 hsrcv
        · exact (hnotv' _ hc) (List.mem_append_left _ hsrcv)
      · intro n hn
        rw [List.mem_cons] at hn
        rcases hn with hc | hc
        · subst hc
          exact h2
        · intro hcon
          exact (hnotv' _ hc) (List.mem_append_left _ hcon)

/-- Witness for C3: the two-link path found on `topoAB` runs from port
`a1` to port `b2` and its links are joined by the `ax`-`bx` pairing. -/
theorem findPaths_path_structure_witness :
    ∃ fst lst, pathAB.links.head? = some fst ∧ pathAB.links.getLast? = some lst ∧
      fst.stp1.endpoint = "a1" ∧ lst.stp2.endpoint = "b2" ∧
      List.Chain' (followsLink topoAB) pathAB.links :=
  findPaths_path_structure topoAB ⟨"A", "a1"⟩ ⟨"B", "b2"⟩ none
    ((topoAB.findPaths ⟨"A", "a1"⟩ ⟨"B", "b2"⟩ none).getD []) rfl pathAB (by decide)

/-- Witness for C5: the three-link route on `topoABC` traverses `A`, `B`,
`C` with no repetition. -/
theorem findPaths_no_network_twice_witness :
    (pathABC.links.map (fun l => l.stp1.network)).Nodup :=
  findPaths_no_network_twice topoABC (by decide) ⟨"A", "a1"⟩ ⟨"C", "c1"⟩ none
    ((topoABC.findPaths ⟨"A", "a1"⟩ ⟨"C", "c1"⟩ none).getD []) rfl pathABC (by decide)

end OpenNSA
